import Mathlib

/-!
Shallow embedding of the typed configuration store of the repository
(class `core::Config` in `include/core/utils.hpp`, non-template members in
`src/core/utils.cpp`).

The C++ store erases the type of each value behind a `std::shared_ptr<void>`
and remembers a runtime type identity token
`std::type_index(typeid(std::decay_t<T>))` captured at `set()` time; `get<T>`
re-derives the token of the requested type and compares.  We model the
universe of storable (decayed) C++ value types as an arbitrary type `Tag` with
decidable equality (mirroring `std::type_index`, which identifies each type
uniquely and supports equality comparison), together with an interpretation
`interp : Tag → Type` giving the Lean type of the values of each tag.

The map `std::unordered_map<std::string, ConfigValue>` is modelled as a
function `String → Option ConfigValue` (keys are unique, insertion order is
irrelevant to every observation the class offers).
-/

namespace core

/-- The two failure kinds of the store.  In the C++ source both are thrown as
`std::runtime_error`; they are distinguished by their throw site and message:
the message `"Key not found: " + key` in `Config::get` (the carried string
models the key embedded in that message) and the message
`"Type mismatch in Config::get()"` in `Config::ConfigValue::as`. -/
inductive ConfigError where
  | keyNotFound (key : String)
  | typeMismatch
  deriving DecidableEq

section Store

variable {Tag : Type} [DecidableEq Tag] {interp : Tag → Type}

/-- The entry class `Config::ConfigValue` after construction from a value: the
runtime type token `type_` (that is,
`std::type_index(typeid(typename std::decay<T>::type))`) together with the
stored value `data_` (the pointee of the `std::shared_ptr<void>`).  The
invariant that `type_` matches the dynamic type of `data_` is intrinsic here:
`data_ : interp type_`.

The default constructor of `ConfigValue` (`type_ = typeid(void)`, null
`data_`) is not modelled: it exists only so that
`std::unordered_map::operator[]` can default-construct an entry, and in
`Config::set` that entry is immediately overwritten by assignment from a
constructed `ConfigValue`, so a default-constructed entry is never observable
through the public interface. -/
structure ConfigValue (Tag : Type) (interp : Tag → Type) where
  type_ : Tag
  data_ : interp type_

/-- The member `Config::values_`, an `unordered_map<string, ConfigValue>`,
as a finite map from keys to entries. -/
def Config (Tag : Type) (interp : Tag → Type) : Type :=
  String → Option (ConfigValue Tag interp)

/-- A `Config` as created by its default constructor: the empty map. -/
def Config.empty : Config Tag interp := fun _ => none

/-- Member `ConfigValue::as<T>()` for a requested (decayed) type `t`: compare
`type_` with the token of the requested type; on match return (a copy of) the
stored value, otherwise throw the type-mismatch error. -/
def ConfigValue.as (cv : ConfigValue Tag interp) (t : Tag) :
    Except ConfigError (interp t) :=
  if h : cv.type_ = t then .ok (h ▸ cv.data_) else .error .typeMismatch

/-- Member `Config::set<T>(key, value)`:
`values_[key] = ConfigValue(std::forward<T>(value));` — the entry at `key` is
replaced by a freshly constructed `ConfigValue` whose token is the decayed
type of the argument; all other keys are untouched. -/
def Config.set (c : Config Tag interp) (k : String) (t : Tag) (v : interp t) :
    Config Tag interp :=
  fun k2 => if k2 = k then some ⟨t, v⟩ else c k2

/-- Member `Config::get<T>(key)`: look the key up (`values_.find`); an absent
key throws the key-not-found error, a present entry is read through
`ConfigValue::as<T>`. -/
def Config.get (c : Config Tag interp) (k : String) (t : Tag) :
    Except ConfigError (interp t) :=
  match c k with
  | none => .error (.keyNotFound k)
  | some cv => cv.as t

/-- Member `Config::getOrDefault<T>(key, defaultValue)`: an absent key
returns the default; a present entry is read through `ConfigValue::as<T>`
exactly as in `get`. -/
def Config.getOrDefault (c : Config Tag interp) (k : String) (t : Tag)
    (d : interp t) : Except ConfigError (interp t) :=
  match c k with
  | none => .ok d
  | some cv => cv.as t

/-- Member `Config::has(key)`: `values_.find(key) != values_.end()`. -/
def Config.has (c : Config Tag interp) (k : String) : Bool :=
  (c k).isSome

/-- Member `Config::remove(key)`: `values_.erase(key)` — deletes the entry if
present, does nothing otherwise, never fails. -/
def Config.remove (c : Config Tag interp) (k : String) : Config Tag interp :=
  fun k2 => if k2 = k then none else c k2

end Store

/-! ### C++ types with qualifiers and `std::decay`

The members `set`, `get`, `getOrDefault` and `as` are templates whose
parameter `T` may be cv-qualified and reference-qualified; the source applies
`std::decay` before taking `typeid`.  We model the relevant fragment of the
C++ type grammar: a base (decayed) value type from the tag universe, with
top-level `const` / `volatile` qualifiers and a reference qualifier.  (Array
and function types, the remaining cases of `std::decay`, do not occur in the
universe of types the repository stores and are not modelled.) -/

/-- Reference qualification of a C++ type. -/
inductive RefQual where
  | noRef
  | lvalueRef
  | rvalueRef
  deriving DecidableEq

/-- A possibly cv-qualified and reference-qualified C++ type over the
universe of storable value types `Tag`. -/
structure CppType (Tag : Type) where
  base : Tag
  isConst : Bool
  isVolatile : Bool
  refQual : RefQual

/-- Models `std::remove_reference`. -/
def CppType.removeReference {Tag : Type} (T : CppType Tag) : CppType Tag :=
  { T with refQual := .noRef }

/-- Models `std::remove_cv`, which strips the top-level cv-qualifiers of a
non-reference type. -/
def CppType.removeCv {Tag : Type} (T : CppType Tag) : CppType Tag :=
  { T with isConst := false, isVolatile := false }

/-- Models `std::decay` on non-array, non-function types: remove the
reference, then remove the top-level cv-qualifiers. -/
def CppType.decay {Tag : Type} (T : CppType Tag) : CppType Tag :=
  T.removeReference.removeCv

/-- Models `std::type_index(typeid(T))`: `typeid` refers to the referenced
type when `T` is a reference type and ignores top-level cv-qualifiers, so the
token only depends on the base value type. -/
def CppType.typeIndex {Tag : Type} (T : CppType Tag) : Tag :=
  T.base

section CppStore

variable {Tag : Type} [DecidableEq Tag] {interp : Tag → Type}

/-- Member `ConfigValue::as<T>()` with the template parameter kept qualified,
exactly as in the source: `using DecayedT = typename std::decay<T>::type;`
then compare `type_` against `std::type_index(typeid(DecayedT))` and return
the stored `DecayedT` (converted to the return type `T`, which carries the
same value). -/
def ConfigValue.asCpp (cv : ConfigValue Tag interp) (T : CppType Tag) :
    Except ConfigError (interp T.decay.typeIndex) :=
  if h : cv.type_ = T.decay.typeIndex then .ok (h ▸ cv.data_)
  else .error .typeMismatch

/-- Member `Config::get<T>(key)` with a qualified template parameter. -/
def Config.getCpp (c : Config Tag interp) (k : String) (T : CppType Tag) :
    Except ConfigError (interp T.decay.typeIndex) :=
  match c k with
  | none => .error (.keyNotFound k)
  | some cv => cv.asCpp T

/-- Member `Config::set<T>(key, value)` with the deduced forwarding parameter
`T` kept qualified (deduction against `T&&` yields a reference type for
lvalue arguments): the constructed `ConfigValue` captures the token
`std::type_index(typeid(typename std::decay<T>::type))`. -/
def Config.setCpp (c : Config Tag interp) (k : String) (T : CppType Tag)
    (v : interp T.decay.typeIndex) : Config Tag interp :=
  fun k2 => if k2 = k then some ⟨T.decay.typeIndex, v⟩ else c k2

end CppStore

/-! ### Operation traces

A client-visible operation on one store, and the straight-line semantics of a
sequence of operations, for the history invariant (a key is present iff it
was `set` and not since `remove`d) and for the absence of side effects of
failing reads. -/

section Traces

variable {Tag : Type} [DecidableEq Tag] {interp : Tag → Type}

/-- One call of the public interface of `Config`. -/
inductive Op (Tag : Type) (interp : Tag → Type) where
  | set (k : String) (t : Tag) (v : interp t)
  | get (k : String) (t : Tag)
  | getOrDefault (k : String) (t : Tag) (d : interp t)
  | has (k : String)
  | remove (k : String)

/-- What a single call returns to the caller: `done` for the `void` calls, a
boolean for `has`, a typed value for a successful read, or a thrown error. -/
inductive OpOutput (Tag : Type) (interp : Tag → Type) where
  | done
  | answer (b : Bool)
  | value (t : Tag) (v : interp t)
  | raised (e : ConfigError)

/-- Run one call: the store afterwards together with the output.  `set` and
`remove` mutate `values_`; `get`, `getOrDefault` and `has` are `const` member
functions reading the map only through `find`. -/
def Config.runOp (c : Config Tag interp) :
    Op Tag interp → Config Tag interp × OpOutput Tag interp
  | .set k t v => (c.set k t v, .done)
  | .get k t =>
      (c, match c.get k t with
          | .ok v => .value t v
          | .error e => .raised e)
  | .getOrDefault k t d =>
      (c, match c.getOrDefault k t d with
          | .ok v => .value t v
          | .error e => .raised e)
  | .has k => (c, .answer (c.has k))
  | .remove k => (c.remove k, .done)

/-- Run a sequence of calls from a given store, keeping the final store. -/
def Config.runOpsFrom (c : Config Tag interp) (ops : List (Op Tag interp)) :
    Config Tag interp :=
  ops.foldl (fun c op => (c.runOp op).1) c

/-- Run a sequence of calls on a newly created (empty) store. -/
def Config.runOps (ops : List (Op Tag interp)) : Config Tag interp :=
  Config.runOpsFrom Config.empty ops

/-- No operation in `l` is `remove k`: the remove-free condition on the part
of a history after a `set` of `k`. -/
def RemoveFree (k : String) (l : List (Op Tag interp)) : Prop :=
  ∀ op ∈ l, op ≠ Op.remove k

/-- The history predicate of the store invariant: some `set` of `k` occurs in
`ops` with no `remove` of `k` after it (equivalently: a `set` of `k` occurs
and no `remove` of `k` occurs after the last such `set`). -/
def SetNotRemoved (k : String) (ops : List (Op Tag interp)) : Prop :=
  ∃ pre t v suf, ops = pre ++ Op.set k t v :: suf ∧ RemoveFree k suf

/-- One step of tracking whether a single key is alive (present) along a
history: a `set` of the key makes it alive, a `remove` of the key kills it,
every other call leaves it untouched. -/
def aliveStep (k : String) (a : Bool) : Op Tag interp → Bool
  | .set k2 _ _ => if k = k2 then true else a
  | .remove k2 => if k = k2 then false else a
  | _ => a

/-- Whether the key `k` is alive after running `ops` from a store in which
its aliveness is `a`. -/
def aliveFrom (k : String) (a : Bool) (ops : List (Op Tag interp)) : Bool :=
  ops.foldl (aliveStep k) a

end Traces

/-! ### A concrete universe for concrete runs

A small closed universe of storable value types, patterned on the explicit
template instantiations in `utils.cpp` (`int`, `std::string`, `double`,
`bool`); `double` values are not needed by any concrete run in this file, so
the universe here keeps the three exactly representable carriers. -/

/-- Type tags of a demo universe. -/
inductive DemoTag where
  | tInt
  | tStr
  | tBool
  deriving DecidableEq

/-- Carrier of each demo tag. -/
@[reducible] def DemoTag.interp : DemoTag → Type
  | .tInt => Int
  | .tStr => String
  | .tBool => Bool

/-- The demo store type. -/
@[reducible] def DemoConfig : Type := Config DemoTag DemoTag.interp

end core

namespace core

/-! ### General lemmas about single operations -/

section StoreLemmas

variable {Tag : Type} [DecidableEq Tag] {interp : Tag → Type}

/-- Absence of a key is exactly `has` returning `false`. -/
theorem Config.has_eq_false_iff (c : Config Tag interp) (k : String) :
    c.has k = false ↔ c k = none := by
  cases h : c k <;> simp [Config.has, h]

/-- On an absent key, `get` throws the key-not-found error whatever the
requested type. -/
theorem Config.get_of_absent (c : Config Tag interp) (k : String) (t : Tag)
    (h : c k = none) : c.get k t = .error (.keyNotFound k) := by
  simp [Config.get, h]

/-- C2: immediately after `set(k, v)` with a value of type `T`, `get<T>(k)`
succeeds and returns (a copy of) the stored value `v`. -/
theorem claim_C2_get_after_set (c : Config Tag interp) (k : String) (t : Tag)
    (v : interp t) : (c.set k t v).get k t = .ok v := by
  simp [Config.get, Config.set, ConfigValue.as]

/-- C1: whenever the entry at `k` was stored with value type `t1`, requesting
any different value type `t2` makes `get` fail with the type-mismatch error.
Type matching is exact comparison of the type tokens, so the model admits no
implicit numeric widening or narrowing and no inheritance-based
compatibility: distinct tags always mismatch. -/
theorem claim_C1_exact_type (c : Config Tag interp) (k : String)
    (t1 t2 : Tag) (v : interp t1) (hv : c k = some ⟨t1, v⟩) (hne : t2 ≠ t1) :
    c.get k t2 = .error .typeMismatch := by
  simp [Config.get, hv, ConfigValue.as, Ne.symm hne]

/-- C6: re-`set`ting a key that currently holds a value of type `t1` with a
value `v2` of a different type `t2` replaces both the stored value and the
stored type: afterwards `get<t2>` returns `v2` and `get<t1>` fails with the
type-mismatch error (last write wins for both value and type). -/
theorem claim_C6_last_write_wins (c : Config Tag interp) (k : String)
    (t1 : Tag) (v1 : interp t1) (t2 : Tag) (v2 : interp t2)
    (hv : c k = some ⟨t1, v1⟩) (hne : t2 ≠ t1) :
    (c.set k t2 v2).get k t2 = .ok v2 ∧
      (c.set k t2 v2).get k t1 = .error .typeMismatch := by
  constructor
  · simp [Config.get, Config.set, ConfigValue.as]
  · simp [Config.get, Config.set, ConfigValue.as, hne]

/-- C7: after `remove(k)` the key is absent (`has` is `false`), and `remove`
on an absent key does nothing at all — it returns the store unchanged, and in
particular it is not an error (`remove` is total and never throws). -/
theorem claim_C7_remove (c : Config Tag interp) (k : String) :
    (c.remove k).has k = false ∧ (c k = none → c.remove k = c) := by
  constructor
  · simp [Config.has, Config.remove]
  · intro h
    funext k2
    simp only [Config.remove]
    by_cases hk : k2 = k
    · subst hk; simp [h]
    · simp [hk]

/-- C4: `getOrDefault<T>(k, d)` returns the default `d` when `has(k)` is
`false`; when `has(k)` is `true` it produces exactly the result of
`get<T>(k)` — the same value on success and the same type-mismatch error on a
stored-type mismatch; and it never raises the key-not-found error for any
key. -/
theorem claim_C4_getOrDefault (c : Config Tag interp) (k : String) (t : Tag)
    (d : interp t) :
    (c.has k = false → c.getOrDefault k t d = .ok d) ∧
      (c.has k = true → c.getOrDefault k t d = c.get k t) ∧
      (∀ k2, c.getOrDefault k t d ≠ .error (.keyNotFound k2)) := by
  refine ⟨?_, ?_, ?_⟩ <;> cases hv : c k
  · intro _; simp [Config.getOrDefault, hv]
  · intro h; rw [Config.has_eq_false_iff] at h; rw [h] at hv; cases hv
  · intro h; simp [Config.has, hv] at h
  · intro _; simp [Config.getOrDefault, Config.get, hv]
  · intro k2; simp [Config.getOrDefault, hv]
  · intro k2
    simp only [Config.getOrDefault, hv, ConfigValue.as]
    split <;> simp

/-- C10: `set` and `remove` are local to their key: for any other key `k2`,
the stored entry, `has`, and the result of `get` at every requested type are
the same before and after the call. -/
theorem claim_C10_frame (c : Config Tag interp) (k k2 : String)
    (t : Tag) (v : interp t) (hne : k2 ≠ k) :
    (c.set k t v) k2 = c k2 ∧ (c.remove k) k2 = c k2 ∧
      (c.set k t v).has k2 = c.has k2 ∧ (c.remove k).has k2 = c.has k2 ∧
      (∀ t2, (c.set k t v).get k2 t2 = c.get k2 t2) ∧
      (∀ t2, (c.remove k).get k2 t2 = c.get k2 t2) := by
  refine ⟨?_, ?_, ?_, ?_, ?_, ?_⟩ <;>
    simp [Config.set, Config.remove, Config.has, Config.get, hne]

/-- C9: the type comparison at retrieval is over decayed types.  `get<T>`
behaves identically to `get` of the decayed type of `T`, which in turn is the
plain `get` at the base value type, and `set<T>` stores the token of the
decayed type of `T` — so cv-qualifiers and reference qualifiers on either the
stored side or the requested side never cause nor prevent a type-mismatch
error. -/
theorem claim_C9_decayed_types (c : Config Tag interp) (k : String)
    (T : CppType Tag) (v : interp T.decay.typeIndex) :
    c.getCpp k T = c.getCpp k T.decay ∧
      c.getCpp k T = c.get k T.base ∧
      c.setCpp k T v = c.set k T.base v :=
  ⟨rfl, rfl, rfl⟩

end StoreLemmas

/-! ### Lemmas about operation traces -/

section TraceLemmas

variable {Tag : Type} [DecidableEq Tag] {interp : Tag → Type}

/-- One executed call changes the aliveness of key `k` exactly as
`aliveStep` says. -/
theorem Config.has_runOp (c : Config Tag interp) (op : Op Tag interp)
    (k : String) : ((c.runOp op).1).has k = aliveStep k (c.has k) op := by
  cases op <;>
    simp only [Config.runOp, aliveStep, Config.has, Config.set,
      Config.remove] <;>
    split <;> simp_all

/-- A run of calls changes the aliveness of key `k` exactly as `aliveFrom`
says. -/
theorem Config.has_runOpsFrom (ops : List (Op Tag interp))
    (c : Config Tag interp) (k : String) :
    (c.runOpsFrom ops).has k = aliveFrom k (c.has k) ops := by
  induction ops generalizing c with
  | nil => rfl
  | cons op ops ih =>
      show ((c.runOp op).1.runOpsFrom ops).has k = _
      rw [ih, Config.has_runOp]
      rfl

/-- Unfolding of the remove-free condition on a nonempty history. -/
theorem removeFree_cons (k : String) (op : Op Tag interp)
    (ops : List (Op Tag interp)) :
    RemoveFree k (op :: ops) ↔ op ≠ Op.remove k ∧ RemoveFree k ops := by
  simp [RemoveFree]

/-- An empty history contains no `set`. -/
theorem setNotRemoved_nil (k : String) :
    ¬ SetNotRemoved k ([] : List (Op Tag interp)) := by
  rintro ⟨pre, t, v, suf, heq, -⟩
  exact List.not_mem_nil _
    (heq ▸ List.mem_append_right pre (List.mem_cons_self _ _))

/-- Unfolding of the set-not-removed condition on a nonempty history: either
the head is the witnessing `set` and the tail is remove-free, or the tail
contains the witness. -/
theorem setNotRemoved_cons (k : String) (op : Op Tag interp)
    (ops : List (Op Tag interp)) :
    SetNotRemoved k (op :: ops) ↔
      (∃ t v, op = Op.set k t v ∧ RemoveFree k ops) ∨ SetNotRemoved k ops := by
  constructor
  · rintro ⟨pre, t, v, suf, heq, hrf⟩
    cases pre with
    | nil =>
        rw [List.nil_append, List.cons_eq_cons] at heq
        exact Or.inl ⟨t, v, heq.1, heq.2 ▸ hrf⟩
    | cons p pre =>
        rw [List.cons_append, List.cons_eq_cons] at heq
        exact Or.inr ⟨pre, t, v, suf, heq.2, hrf⟩
  · rintro (⟨t, v, rfl, hrf⟩ | ⟨pre, t, v, suf, rfl, hrf⟩)
    · exact ⟨[], t, v, ops, rfl, hrf⟩
    · exact ⟨op :: pre, t, v, suf, rfl, hrf⟩

/-- The aliveness computation agrees with the history predicate: a key is
alive after a run exactly when the run contains a surviving `set` of it, or
it was alive before and the run never removed it. -/
theorem aliveFrom_eq_true_iff (k : String) (a : Bool)
    (ops : List (Op Tag interp)) :
    aliveFrom k a ops = true ↔
      SetNotRemoved k ops ∨ (a = true ∧ RemoveFree k ops) := by
  induction ops generalizing a with
  | nil =>
      simp [aliveFrom, setNotRemoved_nil, RemoveFree]
  | cons op ops ih =>
      show aliveFrom k (aliveStep k a op) ops = true ↔ _
      rw [ih, setNotRemoved_cons, removeFree_cons]
      cases op with
      | set k2 t v =>
          by_cases hk : k = k2
          · subst hk
            simp only [aliveStep, if_pos rfl]
            constructor
            · rintro (h | ⟨-, hrf⟩)
              · exact Or.inl (Or.inr h)
              · exact Or.inl (Or.inl ⟨t, v, rfl, hrf⟩)
            · rintro ((⟨t2, v2, -, hrf⟩ | h) | ⟨-, -, hrf⟩)
              · exact Or.inr ⟨rfl, hrf⟩
              · exact Or.inl h
              · exact Or.inr ⟨rfl, hrf⟩
          · simp only [aliveStep, if_neg hk]
            constructor
            · rintro (h | ⟨ha, hrf⟩)
              · exact Or.inl (Or.inr h)
              · exact Or.inr ⟨ha, by simp [Op.set.injEq], hrf⟩
            · rintro ((⟨t2, v2, heq, -⟩ | h) | ⟨ha, -, hrf⟩)
              · cases heq; exact absurd rfl hk
              · exact Or.inl h
              · exact Or.inr ⟨ha, hrf⟩
      | remove k2 =>
          by_cases hk : k = k2
          · subst hk
            simp only [aliveStep, if_pos rfl]
            constructor
            · rintro (h | ⟨ha, -⟩)
              · exact Or.inl (Or.inr h)
              · cases ha
            · rintro ((⟨t2, v2, heq, -⟩ | h) | ⟨-, hne, -⟩)
              · cases heq
              · exact Or.inl h
              · exact absurd rfl hne
          · simp only [aliveStep, if_neg hk]
            constructor
            · rintro (h | ⟨ha, hrf⟩)
              · exact Or.inl (Or.inr h)
              · exact Or.inr ⟨ha,
                  by simp [Op.remove.injEq]; exact fun h2 => hk h2.symm, hrf⟩
            · rintro ((⟨t2, v2, heq, -⟩ | h) | ⟨ha, -, hrf⟩)
              · cases heq
              · exact Or.inl h
              · exact Or.inr ⟨ha, hrf⟩
      | get k2 t =>
          simp only [aliveStep]
          constructor
          · rintro (h | ⟨ha, hrf⟩)
            · exact Or.inl (Or.inr h)
            · exact Or.inr ⟨ha, by simp, hrf⟩
          · rintro ((⟨t2, v2, heq, -⟩ | h) | ⟨ha, -, hrf⟩)
            · cases heq
            · exact Or.inl h
            · exact Or.inr ⟨ha, hrf⟩
      | getOrDefault k2 t d =>
          simp only [aliveStep]
          constructor
          · rintro (h | ⟨ha, hrf⟩)
            · exact Or.inl (Or.inr h)
            · exact Or.inr ⟨ha, by simp, hrf⟩
          · rintro ((⟨t2, v2, heq, -⟩ | h) | ⟨ha, -, hrf⟩)
            · cases heq
            · exact Or.inl h
            · exact Or.inr ⟨ha, hrf⟩
      | has k2 =>
          simp only [aliveStep]
          constructor
          · rintro (h | ⟨ha, hrf⟩)
            · exact Or.inl (Or.inr h)
            · exact Or.inr ⟨ha, by simp, hrf⟩
          · rintro ((⟨t2, v2, heq, -⟩ | h) | ⟨ha, -, hrf⟩)
            · cases heq
            · exact Or.inl h
            · exact Or.inr ⟨ha, hrf⟩

/-- C5: starting from a newly created (empty) store, a key `k` is present
(`has(k)` is `true`) after running a sequence of operations if and only if
the sequence contains a `set` of `k` with no `remove` of `k` anywhere after
it — equivalently, `set` was called for `k` at some point and no `remove(k)`
occurred after the last such `set`. -/
theorem claim_C5_presence_invariant (ops : List (Op Tag interp))
    (k : String) :
    (Config.runOps ops).has k = true ↔
      ∃ pre t v suf, ops = pre ++ Op.set k t v :: suf ∧
        ∀ op ∈ suf, op ≠ Op.remove k := by
  rw [Config.runOps, Config.has_runOpsFrom, aliveFrom_eq_true_iff]
  have h : (Config.empty : Config Tag interp).has k = false := rfl
  rw [h]
  simp [SetNotRemoved, RemoveFree]

/-- C3: if a sequence of operations run on a newly created store never `set`
the key `k`, or every `set` of `k` was followed by a later `remove` of `k`,
then `has(k)` is `false` afterwards and `get<T>(k)` fails with the
key-not-found error for every requested type `T`. -/
theorem claim_C3_absent_key (ops : List (Op Tag interp)) (k : String)
    (hnever : ¬ ∃ pre t v suf, ops = pre ++ Op.set k t v :: suf ∧
        ∀ op ∈ suf, op ≠ Op.remove k) :
    (Config.runOps ops).has k = false ∧
      ∀ t, (Config.runOps ops).get k t = .error (.keyNotFound k) := by
  have hfalse : (Config.runOps ops).has k = false := by
    rcases h : (Config.runOps ops).has k with _ | _
    · rfl
    · rw [Config.runOps, Config.has_runOpsFrom, aliveFrom_eq_true_iff] at h
      rcases h with h | ⟨ha, -⟩
      · exact absurd h hnever
      · cases ha
  refine ⟨hfalse, fun t => ?_⟩
  exact Config.get_of_absent _ _ _ ((Config.has_eq_false_iff _ _).1 hfalse)

/-- C8: a failing operation has no side effects: whenever a call raises an
error, the store afterwards is identical to the store before, and running any
further sequence of operations from it gives exactly what running that
sequence from the original store gives (the failing call might as well not
have happened).  Only `get` and `getOrDefault` can raise, so the hypothesis
covers exactly the failing reads. -/
theorem claim_C8_failed_ops_no_side_effects (c : Config Tag interp)
    (op : Op Tag interp) (e : ConfigError)
    (hfail : (c.runOp op).2 = .raised e) :
    (c.runOp op).1 = c ∧
      ∀ ops, Config.runOpsFrom (c.runOp op).1 ops = Config.runOpsFrom c ops := by
  cases op with
  | set k t v => cases hfail
  | remove k => cases hfail
  | get k t => exact ⟨rfl, fun _ => rfl⟩
  | getOrDefault k t d => exact ⟨rfl, fun _ => rfl⟩
  | has k => exact ⟨rfl, fun _ => rfl⟩

end TraceLemmas

end core

namespace core

/-! ### Concrete witnesses in the demo universe -/

/-- Witness for C1: storing an `int` under `"a"` and requesting a `string`
fails with the type-mismatch error. -/
theorem claim_C1_witness :
    (Config.empty.set "a" DemoTag.tInt 5 : DemoConfig) "a"
        = some ⟨DemoTag.tInt, 5⟩ ∧
      DemoTag.tStr ≠ DemoTag.tInt ∧
      (Config.empty.set "a" DemoTag.tInt 5 : DemoConfig).get "a" .tStr
        = .error .typeMismatch :=
  ⟨rfl, by decide,
    claim_C1_exact_type (Config.empty.set "a" DemoTag.tInt 5 : DemoConfig)
      "a" DemoTag.tInt DemoTag.tStr 5 rfl (by decide)⟩

/-- Witness for C3: after `set("a", 5); remove("a")` the key is absent and
`get` fails with the key-not-found error. -/
theorem claim_C3_witness :
    (Config.runOps [Op.set "a" DemoTag.tInt 5, Op.remove "a"]
          : DemoConfig).has "a" = false ∧
      (Config.runOps [Op.set "a" DemoTag.tInt 5, Op.remove "a"]
          : DemoConfig).get "a" .tInt = .error (.keyNotFound "a") := by
  have h := claim_C3_absent_key
      ([Op.set "a" DemoTag.tInt 5, Op.remove "a"]
        : List (Op DemoTag DemoTag.interp)) "a" ?_
  · exact ⟨h.1, h.2 .tInt⟩
  · rintro ⟨pre, t, v, suf, heq, hrf⟩
    rcases pre with - | ⟨p1, - | ⟨p2, pre⟩⟩
    · rw [List.nil_append, List.cons_eq_cons] at heq
      exact hrf (Op.remove "a") (heq.2 ▸ List.mem_cons_self _ _) rfl
    · rw [List.cons_append, List.cons_eq_cons, List.nil_append,
        List.cons_eq_cons] at heq
      cases heq.2.1
    · rw [List.cons_append, List.cons_eq_cons, List.cons_append,
        List.cons_eq_cons] at heq
      exact absurd heq.2.2 (by simp)

/-- Witness for C4: on an empty store `has("a")` is `false` and
`getOrDefault("a", 7)` returns the default `7`. -/
theorem claim_C4_witness :
    (Config.empty : DemoConfig).has "a" = false ∧
      (Config.empty : DemoConfig).getOrDefault "a" .tInt 7 = .ok 7 :=
  ⟨rfl, (claim_C4_getOrDefault (Config.empty : DemoConfig) "a"
    DemoTag.tInt 7).1 rfl⟩

/-- Witness for C5: after the one-element history `set("a", 5)` the key is
present. -/
theorem claim_C5_witness :
    (Config.runOps [Op.set "a" DemoTag.tInt 5] : DemoConfig).has "a" = true :=
  (claim_C5_presence_invariant
      ([Op.set "a" DemoTag.tInt 5] : List (Op DemoTag DemoTag.interp)) "a").2
    ⟨[], DemoTag.tInt, 5, [], rfl, by simp⟩

/-- Witness for C6: re-`set`ting `"a"` from `int 5` to `string "x"` makes the
`string` read succeed with `"x"` and the `int` read fail with the
type-mismatch error. -/
theorem claim_C6_witness :
    (Config.empty.set "a" DemoTag.tInt 5 : DemoConfig) "a"
        = some ⟨DemoTag.tInt, 5⟩ ∧
      DemoTag.tStr ≠ DemoTag.tInt ∧
      ((Config.empty.set "a" DemoTag.tInt 5 : DemoConfig).set "a" .tStr
          "x").get "a" .tStr = .ok "x" ∧
      ((Config.empty.set "a" DemoTag.tInt 5 : DemoConfig).set "a" .tStr
          "x").get "a" .tInt = .error .typeMismatch :=
  ⟨rfl, by decide,
    (claim_C6_last_write_wins (Config.empty.set "a" DemoTag.tInt 5 : DemoConfig)
      "a" DemoTag.tInt 5 DemoTag.tStr "x" rfl (by decide)).1,
    (claim_C6_last_write_wins (Config.empty.set "a" DemoTag.tInt 5 : DemoConfig)
      "a" DemoTag.tInt 5 DemoTag.tStr "x" rfl (by decide)).2⟩

/-- Witness for C7: removing a just-set key makes it absent, and removing a
key from the empty store returns the empty store unchanged. -/
theorem claim_C7_witness :
    ((Config.empty.set "a" DemoTag.tInt 5 : DemoConfig).remove "a").has "a"
        = false ∧
      (Config.empty : DemoConfig).remove "b" = Config.empty :=
  ⟨(claim_C7_remove (Config.empty.set "a" DemoTag.tInt 5) "a").1,
    (claim_C7_remove (Config.empty : DemoConfig) "b").2 rfl⟩

/-- Witness for C8: `get("a")` on the empty store raises the key-not-found
error, leaves the store equal to the empty store, and a subsequent `set`
behaves exactly as if run on the original store. -/
theorem claim_C8_witness :
    ((Config.empty : DemoConfig).runOp (.get "a" .tInt)).2
        = .raised (.keyNotFound "a") ∧
      ((Config.empty : DemoConfig).runOp (.get "a" .tInt)).1 = Config.empty ∧
      Config.runOpsFrom ((Config.empty : DemoConfig).runOp
            (.get "a" .tInt)).1 [Op.set "b" DemoTag.tStr "x"]
        = Config.runOpsFrom Config.empty [Op.set "b" DemoTag.tStr "x"] :=
  ⟨rfl,
    (claim_C8_failed_ops_no_side_effects (Config.empty : DemoConfig)
      (Op.get "a" DemoTag.tInt) (ConfigError.keyNotFound "a") rfl).1,
    (claim_C8_failed_ops_no_side_effects (Config.empty : DemoConfig)
      (Op.get "a" DemoTag.tInt) (ConfigError.keyNotFound "a") rfl).2
      [Op.set "b" DemoTag.tStr "x"]⟩

/-- Witness for C10: setting `"a"` leaves the reads at the distinct key `"b"`
unchanged. -/
theorem claim_C10_witness :
    ("b" : String) ≠ "a" ∧
      ((Config.empty.set "b" DemoTag.tStr "x" : DemoConfig).set "a"
          .tInt 5).get "b" .tStr
        = (Config.empty.set "b" DemoTag.tStr "x" : DemoConfig).get "b" .tStr :=
  ⟨by decide,
    (claim_C10_frame (Config.empty.set "b" DemoTag.tStr "x" : DemoConfig)
        "a" "b" DemoTag.tInt 5 (by decide)).2.2.2.2.1 DemoTag.tStr⟩

end core
